import Mathlib

/-
Verification of the Lua-Wrapper value-handle layer (src/Lua.hpp).

Shallow embedding notes.  The wrapper is compiled with the options set in the
header: LUA_WRAPPER_IMPLEMENTATION_LUAJIT, LUA_WRAPPER_STATELESS_STRINGS,
LUA_WRAPPER_TABLE_RETURN, LUA_WRAPPER_SMART_FUNCTIONS;
LUA_WRAPPER_INDEXABLE_LOCALS is not defined, so local::operator[] is compiled
out and the dead `tindex` member of `local` (reset to a default proxy by
release(), a no-op) is not modelled.

The embedded interpreter (LuaJIT) is modelled just deeply enough for the
wrapper's use of its C API: a value stack (head of the list is the stack top),
the registry table with luaL_ref's free-list discipline (refs are 1-based and a
freed slot stores the previous free-list head as a plain number, exactly as
luaL_ref/luaL_unref maintain it), the global table, and a heap of tables.
Lua errors raised by unprotected API calls (such as lua_settable on a
non-table) and C++ exceptions thrown by the wrapper are both modelled as an
error result; mutations performed before the failure are kept, matching C++
exception semantics.  Each interpreter primitive is atomic.

C++ behaviour that is undefined or unspecified is modelled by explicit,
clearly-marked conventions:
 * reading a union member other than the active one (local::value) yields a
   fixed junk value (0 / false); no settled claim depends on which value;
 * the `t` member left unset by local::local(state&) is modelled by the
   dedicated tag LType.uninit;
 * a null or dangling lua_State pointer makes the primitive fail with
   Err.badState;
 * release_string on a buffer that was not allocated by create_string (and so
   lacks the 4-byte reference-count header) accesses memory outside the
   allocation; this heap corruption is modelled as Err.poolCorruption.
-/

/-- Scripting runtime values, as they live on the interpreter stack, in the
registry, in the global table and inside tables.  LuaJIT stores every numeric
value as a double; a value pushed by lua_pushinteger is kept in the separate
`int` constructor, and raw equality (`luaEq`) identifies it with the equal
`num` value, so the single-number-type runtime is observably preserved.
String-to-number coercion of lua_isnumber is not modelled (no claim involves
numeric strings). -/
inductive LuaVal
| nil
| boolean (b : Bool)
| num (q : ℚ)
| int (n : Int)
| str (s : String)
| table (tid : Nat)
| func (fid : Nat)
| cfunc (fid : Nat)
| userdata (uid : Nat)
| lightud (p : Nat)
| thread (thid : Nat)
deriving Repr, DecidableEq

/-- Raw (metatable-free) equality of runtime values: numbers compare by value
across the `num`/`int` representations, everything else structurally. -/
def luaEq : LuaVal → LuaVal → Bool
| .int n, .num q => decide ((n : ℚ) = q)
| .num q, .int n => decide (q = (n : ℚ))
| a, b => decide (a = b)

/-- One stateless-string buffer of the string pool.  `counted` is the layout
produced by local::create_string: a 4-byte reference count followed by the
bytes.  `bare` is the layout produced by the context-free branch of
local::set_as_string: a plain malloc of the bytes with no count header. -/
inductive Buf
| counted (refc : Nat) (data : String)
| bare (data : String)
deriving Repr, DecidableEq

/-- One embedded interpreter instance (one lua_State).  The stack's head is
the top.  Registry references are 1-based; `freeHead` models the free-list
head that luaL_ref keeps in the reserved slot 0 (0 means the list is empty). -/
structure Interp where
  stack : List LuaVal
  registry : List LuaVal
  freeHead : Int
  globals : List (String × LuaVal)
  tables : List (List (LuaVal × LuaVal))
deriving Repr, DecidableEq

/-- The whole modelled machine: the interpreters created so far (`none` marks
one that lua_close has torn down) and the process heap slice used by the
stateless-string pool (`none` marks a freed buffer). -/
structure World where
  interps : List (Option Interp)
  pool : List (Option Buf)
deriving Repr, DecidableEq

/-- Failures: C++ exceptions thrown by the wrapper, Lua errors raised by
unprotected API calls, and modelled undefined behaviour. -/
inductive Err
/-- dereferencing a null or dangling lua_State pointer. -/
| badState
/-- popping or reading below the stack bottom (Lua C API misuse). -/
| stackUnderflow
/-- table_index: "Attempted to use an invalid table_index object". -/
| invalidHandle
/-- table_index: "Attempt to get the value of a table_index that is not
connected to a table". -/
| notBoundToTable
/-- local: "Inconsistant state between locals" (the spec's CrossContextError). -/
| inconsistentState
/-- local: "Cannot call a local that is not a function". -/
| notCallable
/-- local: "Cannot index a local that is not a table". -/
| notATable
/-- local: "Cannot operate on a reference-type local that is not attached to a
state". -/
| detachedState
/-- the runtime raised inside a protected call; carries its message. -/
| scriptError (msg : String)
/-- the runtime raised "attempt to index a non-table value" from an
unprotected lua_gettable/lua_settable. -/
| indexNonTable
/-- heap corruption: pool access through a freed buffer or through a buffer
that has no reference-count header. -/
| poolCorruption
deriving Repr, DecidableEq

deriving instance DecidableEq for Except

/-- The wrapper's effect monad: state on the modelled machine with C++-style
failures (mutations made before a failure are kept). -/
def Mw (α : Type) : Type := World → Except Err α × World

def Mw.pureImpl {α : Type} (a : α) : Mw α := fun w => (.ok a, w)

def Mw.bindImpl {α β : Type} (x : Mw α) (f : α → Mw β) : Mw β := fun w =>
  match x w with
  | (.ok a, w2) => f a w2
  | (.error e, w2) => (.error e, w2)

instance : Monad Mw where
  pure := Mw.pureImpl
  bind := Mw.bindImpl

/-- Raise a failure, keeping the machine as it is. -/
def Mw.throw {α : Type} (e : Err) : Mw α := fun w => (.error e, w)

/-- Run an atomic primitive on the interpreter named by a lua_State pointer.
A null pointer, an unknown id or a closed interpreter is a dereference of a
bad lua_State.  (The machine and interpreter records are destructured once and
rebuilt from the bound components, keeping kernel evaluation of concrete runs
linear.) -/
def onInterp {α : Type} (li : Option Nat) (f : Interp → Except Err α × Interp) :
    Mw α := fun w =>
  match li with
  | none => (.error .badState, w)
  | some i =>
    match w with
    | ⟨is, pl⟩ =>
      match is.get? i with
      | some (some I) =>
        match f I with
        | (r, I2) => (r, ⟨is.set i (some I2), pl⟩)
      | _ => (.error .badState, ⟨is, pl⟩)

/-- Registry read (lua_rawgeti on LUA_REGISTRYINDEX): slot `r` of the 1-based
registry, nil for any key that holds no value (this covers LUA_REFNIL = -1). -/
def regGet (reg : List LuaVal) (r : Int) : LuaVal :=
  if 1 ≤ r ∧ r ≤ reg.length then reg.getD (r - 1).toNat .nil
  else .nil

/-- Registry write at a 1-based ref known to be in range (helper). -/
def regSet (reg : List LuaVal) (r : Int) (v : LuaVal) : List LuaVal :=
  reg.set (r - 1).toNat v

/-- Index the stack the way the Lua C API does: positive indices count from
the bottom (1-based), negative ones from the top (-1 is the top). -/
def stackIdx (st : List LuaVal) (idx : Int) : Option LuaVal :=
  if 0 < idx then st.get? (st.length - idx.toNat)
  else if idx < 0 then st.get? ((-idx).toNat - 1)
  else none

/-- lua_gettop. -/
def getTop (li : Option Nat) : Mw Nat :=
  onInterp li fun I => (.ok I.stack.length, I)

/-- Push one value (lua_pushnil / lua_pushboolean / lua_pushnumber /
lua_pushinteger / lua_pushstring / lua_pushcfunction /
lua_pushlightuserdata, depending on the value). -/
def stackPush (li : Option Nat) (v : LuaVal) : Mw Unit :=
  onInterp li fun I =>
    match I with
    | ⟨st, reg, fh, gl, tb⟩ => (.ok (), ⟨v :: st, reg, fh, gl, tb⟩)

/-- lua_pop(L, n); popping more than the stack holds is C API misuse. -/
def stackPopN (li : Option Nat) (n : Nat) : Mw Unit :=
  onInterp li fun I =>
    match I with
    | ⟨st, reg, fh, gl, tb⟩ =>
      if n ≤ st.length then (.ok (), ⟨st.drop n, reg, fh, gl, tb⟩)
      else (.error .stackUnderflow, ⟨st, reg, fh, gl, tb⟩)

/-- lua_pushvalue(L, idx): push a copy of the value at a stack index. -/
def pushValueIdx (li : Option Nat) (idx : Int) : Mw Unit :=
  onInterp li fun I =>
    match I with
    | ⟨st, reg, fh, gl, tb⟩ =>
      match stackIdx st idx with
      | some v => (.ok (), ⟨v :: st, reg, fh, gl, tb⟩)
      | none => (.error .stackUnderflow, ⟨st, reg, fh, gl, tb⟩)

/-- Read the value at a stack index without moving anything. -/
def stackAt (li : Option Nat) (idx : Int) : Mw LuaVal :=
  onInterp li fun I =>
    match stackIdx I.stack idx with
    | some v => (.ok v, I)
    | none => (.error .stackUnderflow, I)

/-- lua_rawgeti(L, LUA_REGISTRYINDEX, r): push the registry entry. -/
def rawgetiReg (li : Option Nat) (r : Int) : Mw Unit :=
  onInterp li fun I =>
    match I with
    | ⟨st, reg, fh, gl, tb⟩ => (.ok (), ⟨regGet reg r :: st, reg, fh, gl, tb⟩)

/-- luaL_ref(L, LUA_REGISTRYINDEX): pop the top value and anchor it under a
fresh reference.  nil yields LUA_REFNIL (-1).  A freed slot is reused first:
the slot holds the next free-list link, which becomes the new head. -/
def refReg (li : Option Nat) : Mw Int :=
  onInterp li fun I =>
    match I with
    | ⟨st, reg, fh, gl, tb⟩ =>
      match st with
      | [] => (.error .stackUnderflow, ⟨st, reg, fh, gl, tb⟩)
      | v :: rest =>
        if v = .nil then (.ok (-1), ⟨rest, reg, fh, gl, tb⟩)
        else if fh ≠ 0 then
          let newHead : Int := match regGet reg fh with | .int m => m | _ => 0
          (.ok fh, ⟨rest, regSet reg fh v, newHead, gl, tb⟩)
        else
          (.ok ((reg.length : Int) + 1), ⟨rest, reg ++ [v], fh, gl, tb⟩)

/-- luaL_unref(L, LUA_REGISTRYINDEX, r): free the slot by linking it into the
free list — the slot itself now stores the previous head as a plain number.
Negative refs (LUA_REFNIL / LUA_NOREF) are ignored, as in luaL_unref. -/
def unrefReg (li : Option Nat) (r : Int) : Mw Unit :=
  onInterp li fun I =>
    match I with
    | ⟨st, reg, fh, gl, tb⟩ =>
      if 1 ≤ r ∧ r ≤ reg.length then
        (.ok (), ⟨st, regSet reg r (.int fh), r, gl, tb⟩)
      else (.ok (), ⟨st, reg, fh, gl, tb⟩)

/-- Association-list read with Lua raw equality. -/
def tblLookup (t : List (LuaVal × LuaVal)) (k : LuaVal) : LuaVal :=
  match t.find? (fun p => luaEq p.1 k) with
  | some p => p.2
  | none => .nil

/-- Association-list write with Lua raw equality. -/
def tblStore (t : List (LuaVal × LuaVal)) (k v : LuaVal) :
    List (LuaVal × LuaVal) :=
  match t with
  | [] => [(k, v)]
  | p :: rest => if luaEq p.1 k then (k, v) :: rest else p :: tblStore rest k v

/-- lua_gettable(L, idx): pop the key, read the slot of the table at `idx`,
push the result.  On a non-table the runtime raises (metatables are absent in
every modelled world). -/
def getTableOp (li : Option Nat) (idx : Int) : Mw Unit :=
  onInterp li fun I =>
    match I with
    | ⟨st, reg, fh, gl, tb⟩ =>
      match st with
      | [] => (.error .stackUnderflow, ⟨st, reg, fh, gl, tb⟩)
      | key :: rest =>
        match stackIdx st idx with
        | some (.table tid) =>
          (.ok (), ⟨tblLookup (tb.getD tid []) key :: rest, reg, fh, gl, tb⟩)
        | some _ => (.error .indexNonTable, ⟨st, reg, fh, gl, tb⟩)
        | none => (.error .stackUnderflow, ⟨st, reg, fh, gl, tb⟩)

/-- lua_settable(L, idx): pop the value and the key, store into the table at
`idx`.  On a non-table the runtime raises. -/
def setTableOp (li : Option Nat) (idx : Int) : Mw Unit :=
  onInterp li fun I =>
    match I with
    | ⟨st, reg, fh, gl, tb⟩ =>
      match st with
      | v :: key :: rest =>
        match stackIdx st idx with
        | some (.table tid) =>
          (.ok (), ⟨rest, reg, fh, gl, tb.set tid (tblStore (tb.getD tid []) key v)⟩)
        | some _ => (.error .indexNonTable, ⟨st, reg, fh, gl, tb⟩)
        | none => (.error .stackUnderflow, ⟨st, reg, fh, gl, tb⟩)
      | _ => (.error .stackUnderflow, ⟨st, reg, fh, gl, tb⟩)

/-- lua_createtable: allocate a fresh empty table and push it (the size hints
are only hints and are not modelled). -/
def createTableOp (li : Option Nat) : Mw Unit :=
  onInterp li fun I =>
    match I with
    | ⟨st, reg, fh, gl, tb⟩ =>
      (.ok (), ⟨.table tb.length :: st, reg, fh, gl, tb ++ [[]]⟩)

/-- lua_getglobal(L, n): push the global (nil when absent). -/
def getGlobalOp (li : Option Nat) (n : String) : Mw Unit :=
  onInterp li fun I =>
    match I with
    | ⟨st, reg, fh, gl, tb⟩ =>
      match gl.find? (fun p => p.1 = n) with
      | some p => (.ok (), ⟨p.2 :: st, reg, fh, gl, tb⟩)
      | none => (.ok (), ⟨.nil :: st, reg, fh, gl, tb⟩)

/-- Association-list write for the global table. -/
def globStore (g : List (String × LuaVal)) (n : String) (v : LuaVal) :
    List (String × LuaVal) :=
  match g with
  | [] => [(n, v)]
  | p :: rest => if p.1 = n then (n, v) :: rest else p :: globStore rest n v

/-- lua_setglobal(L, n): pop the top value into the global.  An empty stack is
C API misuse. -/
def setGlobalOp (li : Option Nat) (n : String) : Mw Unit :=
  onInterp li fun I =>
    match I with
    | ⟨st, reg, fh, gl, tb⟩ =>
      match st with
      | [] => (.error .stackUnderflow, ⟨st, reg, fh, gl, tb⟩)
      | v :: rest => (.ok (), ⟨rest, reg, fh, globStore gl n v, tb⟩)

/-- lua_tostring(L, -1) as the wrapper uses it: read the message on top of the
stack (only ever applied to the error message a failed pcall left there). -/
def toStringTop (li : Option Nat) : Mw String :=
  onInterp li fun I =>
    match I.stack with
    | .str s :: _ => (.ok s, I)
    | _ :: _ => (.ok "", I)
    | [] => (.error .stackUnderflow, I)

/-- What the callee of one protected call does: return these values in order,
or raise with this message.  The callee itself is outside the wrapper; its
behaviour is the parameter of the call-protocol model. -/
inductive CallOutcome
| ret (rs : List LuaVal)
| err (msg : String)
deriving Repr, DecidableEq

/-- lua_pcall(L, nargs, LUA_MULTRET, 0): pop the function and its `nargs`
arguments; on success push the results in order (last result on top) and
report false; on failure push the error message and report true. -/
def pcallOp (li : Option Nat) (nargs : Nat) (outcome : CallOutcome) : Mw Bool :=
  onInterp li fun I =>
    match I with
    | ⟨st, reg, fh, gl, tb⟩ =>
      if nargs + 1 ≤ st.length then
        match outcome with
        | .ret rs => (.ok false, ⟨rs.reverse ++ st.drop (nargs + 1), reg, fh, gl, tb⟩)
        | .err m => (.ok true, ⟨.str m :: st.drop (nargs + 1), reg, fh, gl, tb⟩)
      else (.error .stackUnderflow, ⟨st, reg, fh, gl, tb⟩)

/- ===== The value-handle data model (class local) ===== -/

/-- The wrapper's tag enum local::type, plus `uninit`, which models the
indeterminate value of the `t` member that local::local(state&) leaves
unset. -/
inductive LType
| nil
| boolean
| number
| integer
| string
| statelessString
| function
| cfunction
| userdata
| lightuserdata
| thread
| table
| uninit
deriving Repr, DecidableEq

/-- The payload union of class local.  In C++ reading a member other than the
one last stored is unspecified; the accessors below return a fixed junk value
(0 / false) in that case, and no settled claim depends on which value it is. -/
inductive Payload
| undef
| b (x : Bool)
| n (q : ℚ)
| i (x : Int)
| cf (fid : Nat)
| lu (p : Nat)
| ref (r : Int)
| sstr (bufId : Nat)
deriving Repr, DecidableEq

def Payload.boolVal : Payload → Bool
| .b x => x
| _ => false

def Payload.numVal : Payload → ℚ
| .n q => q
| _ => 0

def Payload.intVal : Payload → Int
| .i x => x
| _ => 0

def Payload.cfVal : Payload → Nat
| .cf f => f
| _ => 0

def Payload.luVal : Payload → Nat
| .lu p => p
| _ => 0

def Payload.refVal : Payload → Int
| .ref r => r
| _ => 0

def Payload.sstrVal : Payload → Nat
| .sstr k => k
| _ => 0

/-- Class local: the value handle.  `s` is the state pointer member, `L` the
lua_State pointer member (a state and its lua_State carry the same id in the
model).  The `cargs` member is live only inside one call invocation and is
passed explicitly to the call-protocol functions instead. -/
structure LocalVal where
  s : Option Nat
  L : Option Nat
  t : LType
  v : Payload
deriving Repr, DecidableEq

/-- local::local(): detached nil handle. -/
def localDefault : LocalVal := ⟨none, none, .nil, .undef⟩

/-- local::local(state &s): records the state and its lua_State but leaves
the tag and the payload unset. -/
def localOfStatePtr (sp : Option Nat) : LocalVal := ⟨sp, sp, .uninit, .undef⟩

/-- local::local(bool). -/
def localOfBool (x : Bool) : LocalVal := ⟨none, none, .boolean, .b x⟩

/-- local::local(lua_Number): stores the number as-is; no classification. -/
def localOfNumber (q : ℚ) : LocalVal := ⟨none, none, .number, .n q⟩

/-- local::local(lua_CFunction). -/
def localOfCFunction (fid : Nat) : LocalVal := ⟨none, none, .cfunction, .cf fid⟩

/-- local::local(void*). -/
def localOfPointer (p : Nat) : LocalVal := ⟨none, none, .lightuserdata, .lu p⟩

/-- local::local(state&, bool). -/
def localOfStateBool (sid : Nat) (x : Bool) : LocalVal :=
  ⟨some sid, some sid, .boolean, .b x⟩

/-- local::local(state&, lua_Number): stores the number as-is; no
classification. -/
def localOfStateNumber (sid : Nat) (q : ℚ) : LocalVal :=
  ⟨some sid, some sid, .number, .n q⟩

/-- local::is_ref_type: string, function, userdata, thread and table are
registry-anchored kinds (cfunction and the stateless string are not). -/
def isRefType : LType → Bool
| .string => true
| .function => true
| .userdata => true
| .thread => true
| .table => true
| _ => false

/-- Truncation toward zero, as the C cast in lua_tointeger performs it. -/
def truncRat (q : ℚ) : Int := Int.tdiv q.num (q.den : Int)

/-- Floor of a rational through integer division (the denominator is always
positive). -/
def ratFloor (q : ℚ) : Int := Int.fdiv q.num (q.den : Int)

/-- Wrap to a signed 32-bit integer: numberToInteger returns the low 32 bits
of the shifted mantissa through the `int i[2]` union member. -/
def wrap32 (n : Int) : Int := (n + 2 ^ 31) % 2 ^ 32 - 2 ^ 31

/-- local::numberToInteger: the magic-constant trick adds 2^52 + 2^51
(6755399441055744.0) to the double, which under IEEE round-to-nearest-even
rounds the value to the nearest integer with ties to even, and then reads the
low 32 bits of the resulting mantissa (picking the union half by host byte
order) as a signed integer.  For doubles of magnitude below 2^51 that is
exactly round-half-to-even wrapped to 32 bits, which is what this definition
computes (the fractional part rem/den is compared with 1/2 through the
cross-multiplied integer comparison 2*rem against den). -/
def numberToInteger (q : ℚ) : Int :=
  let f := ratFloor q
  let rem := q.num - f * (q.den : Int)
  wrap32 (if 2 * rem < (q.den : Int) then f
          else if (q.den : Int) < 2 * rem then f + 1
          else if f % 2 = 0 then f else f + 1)

/-- local::integerize: unconditionally turns a number-tagged handle into an
integer-tagged one via numberToInteger (no round-trip test). -/
def integerize (h : LocalVal) : LocalVal :=
  if h.t = .integer then h
  else { h with t := .integer, v := .i (numberToInteger h.v.numVal) }

/-- local::to_integer. -/
def to_integer (h : LocalVal) : Int :=
  if h.t = .integer then h.v.intVal
  else if h.t = .number then numberToInteger h.v.numVal
  else 0

/-- local::to_number. -/
def to_number (h : LocalVal) : ℚ :=
  if h.t = .number then h.v.numVal
  else if h.t = .integer then (h.v.intVal : ℚ)
  else 0

/- ===== String pool (stateless strings) ===== -/

/-- local::create_string: malloc a buffer with a 4-byte count header set
to 1, returning (the model of) the pointer just past the header. -/
def poolCreate (data : String) : Mw Nat := fun w =>
  match w with
  | ⟨is, pl⟩ => (.ok pl.length, ⟨is, pl ++ [some (.counted 1 data)]⟩)

/-- The context-free branch of local::set_as_string mallocs the bytes only,
with no count header. -/
def poolCreateBare (data : String) : Mw Nat := fun w =>
  match w with
  | ⟨is, pl⟩ => (.ok pl.length, ⟨is, pl ++ [some (.bare data)]⟩)

/-- local::copy_string: increment the count header.  On a buffer without a
header (or already freed) the 4 bytes before the data are outside the
allocation: heap corruption. -/
def poolCopy (id : Nat) : Mw Nat := fun w =>
  match w with
  | ⟨is, pl⟩ =>
    match pl.get? id with
    | some (some (.counted c d)) =>
      (.ok id, ⟨is, pl.set id (some (.counted (c + 1) d))⟩)
    | _ => (.error .poolCorruption, ⟨is, pl⟩)

/-- local::release_string: decrement the count header, freeing the allocation
when it reaches zero.  On a buffer without a header (or already freed) the
access and the eventual free are outside the allocation: heap corruption. -/
def poolRelease (id : Nat) : Mw Unit := fun w =>
  match w with
  | ⟨is, pl⟩ =>
    match pl.get? id with
    | some (some (.counted c d)) =>
      if c ≤ 1 then (.ok (), ⟨is, pl.set id none⟩)
      else (.ok (), ⟨is, pl.set id (some (.counted (c - 1) d))⟩)
    | _ => (.error .poolCorruption, ⟨is, pl⟩)

/-- Read the bytes of a live pool buffer (lua_pushstring(value.string)). -/
def poolData (id : Nat) : Mw String := fun w =>
  match w.pool.get? id with
  | some (some (.counted _ d)) => (.ok d, w)
  | some (some (.bare d)) => (.ok d, w)
  | _ => (.error .poolCorruption, w)

/-- Number of live buffers in the pool. -/
def poolLive (w : World) : Nat := (w.pool.filter Option.isSome).length

/-- local::local(const char*) with stateless strings enabled: a fresh
refcounted buffer. -/
def localOfString (str : String) : Mw LocalVal := do
  let id ← poolCreate str
  pure ⟨none, none, .statelessString, .sstr id⟩

/- ===== Checks (private helpers of class local) ===== -/

/-- local::check_state. -/
def check_state (h : LocalVal) : Mw Unit :=
  if h.s = none then Mw.throw .detachedState else pure ()

/-- local::check_state_consistancy(lua_State *L): a detached handle passes;
a handle bound to a different lua_State throws. -/
def check_state_consistancy (h : LocalVal) (Lp : Option Nat) : Mw Unit :=
  if h.L ≠ none ∧ h.L ≠ Lp then Mw.throw .inconsistentState else pure ()

/-- local::check_is_function: only the `function` tag passes (a cfunction
handle does not). -/
def check_is_function (h : LocalVal) : Mw Unit :=
  if h.t = .function then pure () else Mw.throw .notCallable

/-- local::check_is_table. -/
def check_is_table (h : LocalVal) : Mw Unit :=
  if h.t = .table then pure () else Mw.throw .notATable

/- ===== Registry plumbing (private members of class local) ===== -/

/-- local::push_ref_value: lua_rawgeti on the handle's own lua_State with the
ref member of the union (junk when the active member is not `ref`). -/
def push_ref_value (h : LocalVal) : Mw Unit :=
  rawgetiReg h.L h.v.refVal

/-- local::load_ref_value_no_type(idx): push a copy of the stack value at
`idx`, anchor it with luaL_ref, and store the fresh ref in the union. -/
def load_ref_value_no_type (h : LocalVal) (idx : Int) : Mw LocalVal := do
  pushValueIdx h.L idx
  let r ← refReg h.L
  pure { h with v := .ref r }

/-- local::load_ref_value(idx): classify the tag from the runtime type, then
anchor.  (The number cases cannot reach here: load_value filters them out
first; if no test matches, the tag is left as it was, as in the source.) -/
def load_ref_value (h : LocalVal) (idx : Int) : Mw LocalVal := do
  let v ← stackAt h.L idx
  let t2 := match v with
    | .str _ => LType.string
    | .func _ => LType.function
    | .cfunc _ => LType.function
    | .userdata _ => LType.userdata
    | .lightud _ => LType.userdata
    | .thread _ => LType.thread
    | .table _ => LType.table
    | _ => h.t
  load_ref_value_no_type { h with t := t2 } idx

/-- local::load_value(idx), LuaJIT build: a numeric stack value is classified
integer exactly when casting it to lua_Integer and back reproduces it
(the round-trip test `(lua_Number)lua_tointeger(L,idx) == lua_tonumber(L,idx)`);
everything non-immediate goes through load_ref_value. -/
def load_value (h : LocalVal) (idx : Int) : Mw LocalVal := do
  let v ← stackAt h.L idx
  match v with
  | .nil => pure { h with t := .nil }
  | .boolean b => pure { h with t := .boolean, v := .b b }
  | .num q =>
    if (truncRat q : ℚ) = q then
      pure { h with t := .integer, v := .i (truncRat q) }
    else
      pure { h with t := .number, v := .n q }
  | .int n => pure { h with t := .integer, v := .i n }
  | .cfunc fid => pure { h with t := .cfunction, v := .cf fid }
  | .lightud p => pure { h with t := .lightuserdata, v := .lu p }
  | _ => load_ref_value h idx

/-- local::push_value(lua_State *L): a null argument means the handle's own
lua_State.  Reference kinds go through push_ref_value, which always uses the
handle's own lua_State regardless of the argument (as in the source).  An
unset tag matches no case of the switch: nothing is pushed. -/
def push_value (h : LocalVal) (Lp : Option Nat) : Mw Unit :=
  let Lt := match Lp with | none => h.L | some _ => Lp
  match h.t with
  | .nil => stackPush Lt .nil
  | .boolean => stackPush Lt (.boolean h.v.boolVal)
  | .number => stackPush Lt (.num h.v.numVal)
  | .integer => stackPush Lt (.int h.v.intVal)
  | .string => push_ref_value h
  | .statelessString => do
      let d ← poolData h.v.sstrVal
      stackPush Lt (.str d)
  | .function => push_ref_value h
  | .cfunction => stackPush Lt (.cfunc h.v.cfVal)
  | .userdata => push_ref_value h
  | .lightuserdata => stackPush Lt (.lightud h.v.luVal)
  | .thread => push_ref_value h
  | .table => push_ref_value h
  | .uninit => pure ()

/- ===== Lifetime (release / copy / assignment / move) ===== -/

/-- local::release, also the destructor's body: unref the registry anchor of
an attached reference-kind handle, release the pool buffer of a stateless
string, do nothing otherwise.  (The reset of the dead `tindex` member is a
no-op and is not modelled.) -/
def release (h : LocalVal) : Mw Unit :=
  if h.L ≠ none ∧ isRefType h.t then unrefReg h.L h.v.refVal
  else if h.t = .statelessString then poolRelease h.v.sstrVal
  else pure ()

/-- local::copy_value: copy all members, then give a reference-kind handle an
anchor of its own (push the value through the copied ref, re-anchor, pop) and
a stateless string a counted share of the buffer. -/
def copy_value (src : LocalVal) : Mw LocalVal := do
  let h : LocalVal := ⟨src.s, src.L, src.t, src.v⟩
  if isRefType h.t then do
    push_ref_value h
    let h2 ← load_ref_value_no_type h (-1)
    stackPopN h.L 1
    pure h2
  else if h.t = .statelessString then do
    let id2 ← poolCopy src.v.sstrVal
    pure { h with v := .sstr id2 }
  else pure h

/-- local::operator=(const local&): release the current payload, then copy
from the right-hand side.  There is no self-assignment test; `assignLocal h h`
is exactly the self-assignment `h = h` (release first, then copy_value reading
the same, unmodified members). -/
def assignLocal (dst rhs : LocalVal) : Mw LocalVal := do
  release dst
  copy_value rhs

/-- local::local(local&&): take every member, then set the source's tag to
nil so its destruction releases nothing.  Yields (destination, source as the
move left it). -/
def moveLocal (src : LocalVal) : LocalVal × LocalVal :=
  (⟨src.s, src.L, src.t, src.v⟩, { src with t := .nil })

/- ===== Mutators (set_as_*) ===== -/

/-- local::set_as_nil. -/
def set_as_nil (h : LocalVal) : Mw LocalVal := do
  release h
  pure { h with t := .nil }

/-- local::set_as_boolean. -/
def set_as_boolean (h : LocalVal) (x : Bool) : Mw LocalVal := do
  release h
  pure { h with t := .boolean, v := .b x }

/-- local::set_as_number: store the number, then integerize — immediately and
unconditionally. -/
def set_as_number (h : LocalVal) (q : ℚ) : Mw LocalVal := do
  release h
  pure (integerize { h with t := .number, v := .n q })

/-- local::set_as_integer. -/
def set_as_integer (h : LocalVal) (x : Int) : Mw LocalVal := do
  release h
  pure { h with t := .integer, v := .i x }

/-- local::set_as_string: on a handle with no lua_State, release and install a
bare malloc'd buffer (no count header — not create_string); otherwise
check_state, release, push the bytes, anchor, pop. -/
def set_as_string (h : LocalVal) (str : String) : Mw LocalVal := do
  if h.L = none then do
    release h
    let id ← poolCreateBare str
    pure { h with t := .statelessString, v := .sstr id }
  else do
    check_state h
    release h
    stackPush h.L (.str str)
    let h2 ← load_ref_value_no_type { h with t := .string } (-1)
    stackPopN h.L 1
    pure h2

/- ===== Table access (members of class local) =====

Several member functions take a `local` by value.  The argument object's
copy-construction and destruction belong to the call boundary, not to the
function body: the pair (copy_value, then release on return or unwinding) is
balanced — it leaves the stack, the tables, the globals and the pool as they
were and only cycles one registry slot through the free list — so the models
below take the handle's value directly and do not model the pair. -/

/-- local::table_set(local key, local value). -/
def table_set (tbl key v : LocalVal) : Mw Unit := do
  check_is_table tbl
  check_state_consistancy key tbl.L
  check_state_consistancy v tbl.L
  push_ref_value tbl
  push_value key tbl.L
  push_value v tbl.L
  setTableOp tbl.L (-3)
  stackPopN tbl.L 1

/-- local::table_set(lua_Integer key, local value). -/
def table_set_int (tbl : LocalVal) (key : Int) (v : LocalVal) : Mw Unit := do
  check_is_table tbl
  check_state_consistancy v tbl.L
  push_ref_value tbl
  stackPush tbl.L (.int key)
  push_value v tbl.L
  setTableOp tbl.L (-3)
  stackPopN tbl.L 1

/-- local::table_get(local key): validate, push the table and the key, raw
lua_gettable, load the result into a fresh handle, pop once (the pushed table
stays behind, as in the source). -/
def table_get (tbl key : LocalVal) : Mw LocalVal := do
  check_is_table tbl
  check_state_consistancy key tbl.L
  push_ref_value tbl
  push_value key tbl.L
  getTableOp tbl.L (-2)
  let lcl ← load_value (localOfStatePtr tbl.s) (-1)
  stackPopN tbl.L 1
  pure lcl

/-- local::table_get(lua_Integer key). -/
def table_get_int (tbl : LocalVal) (key : Int) : Mw LocalVal := do
  check_is_table tbl
  push_ref_value tbl
  stackPush tbl.L (.int key)
  getTableOp tbl.L (-2)
  let lcl ← load_value (localOfStatePtr tbl.s) (-1)
  stackPopN tbl.L 1
  pure lcl

/- ===== The table-slot proxy (class table_index) ===== -/

/-- Class table_index: the state pointer, the container's ref (shared
verbatim, never re-anchored) and the key's own ref. -/
structure TableIndex where
  s : Option Nat
  tblRef : Int
  idxRef : Int
deriving Repr, DecidableEq

/-- table_index::table_index(): no state, both refs LUA_REFNIL. -/
def tableIndexDefault : TableIndex := ⟨none, -1, -1⟩

/-- table_index::table_index(state&, int, local&): check the key against the
state, record the container ref as given, push the key and anchor it. -/
def mkTableIndex (sid : Nat) (tblRef : Int) (idx : LocalVal) : Mw TableIndex := do
  check_state_consistancy idx (some sid)
  pushValueLocal idx sid
  let r ← refReg (some sid)
  pure ⟨some sid, tblRef, r⟩
where
  /-- idx.push_value(s.L) -/
  pushValueLocal (idx : LocalVal) (sid : Nat) : Mw Unit := push_value idx (some sid)

/-- table_index::check_valid: a proxy with no recorded state fails. -/
def TableIndex.check_valid (ti : TableIndex) : Mw Unit :=
  if ti.s = none then Mw.throw .invalidHandle else pure ()

/-- table_index::get_value (the conversion operator to local): fail fast on an
invalid proxy and on one not connected to a container; otherwise push the
container and the key through the registry, raw lua_gettable, load the result
and restore the stack. -/
def TableIndex.get_value (ti : TableIndex) : Mw LocalVal := do
  ti.check_valid
  if ti.tblRef = -1 then Mw.throw .notBoundToTable
  else do
    rawgetiReg ti.s ti.tblRef
    rawgetiReg ti.s ti.idxRef
    getTableOp ti.s (-2)
    let l ← load_value (localOfStatePtr ti.s) (-1)
    stackPopN ti.s 2
    pure l

/-- table_index::operator=(local rhs): check the proxy and the value's
context, push the container and the key through the registry, push the value,
raw lua_settable, pop the container.  (rhs is by value; see the call-boundary
note above table_set.) -/
def TableIndex.assign (ti : TableIndex) (rhs : LocalVal) : Mw TableIndex := do
  ti.check_valid
  check_state_consistancy rhs ti.s
  rawgetiReg ti.s ti.tblRef
  rawgetiReg ti.s ti.idxRef
  push_value rhs ti.s
  setTableOp ti.s (-3)
  stackPopN ti.s 1
  pure ti

/- ===== The runtime context (class state) ===== -/

/-- Class state: owns one lua_State (`none` after a move or in a default
moved-from shell). -/
structure StateW where
  L : Option Nat
deriving Repr, DecidableEq

/-- state::state(): luaL_newstate — a fresh interpreter appended to the
machine. -/
def stateNew : Mw StateW := fun w =>
  (.ok ⟨some w.interps.length⟩,
   { w with interps := w.interps ++ [some ⟨[], [], 0, [], []⟩] })

/-- state::state(state&&): take the lua_State, null the source. -/
def moveState (src : StateW) : StateW × StateW :=
  (⟨src.L⟩, ⟨none⟩)

/-- state::~state(): lua_close unless the lua_State was moved away. -/
def stateDrop (st : StateW) : Mw Unit := fun w =>
  match st.L with
  | none => (.ok (), w)
  | some i => (.ok (), { w with interps := w.interps.set i none })

/-- state::create_table: lua_createtable, then a handle is built on this
state, tagged table by hand and anchored via load_ref_value_no_type.  The
pushed table is never popped: it stays on the stack when create_table
returns. -/
def state_create_table (sid : Nat) : Mw LocalVal := do
  createTableOp (some sid)
  let lcl := { localOfStatePtr (some sid) with t := LType.table }
  let lcl2 ← load_ref_value_no_type lcl (-1)
  pure lcl2

/-- state::create_string: a handle on this state given the bytes through
set_as_string (the handle has a lua_State, so the registry branch runs). -/
def state_create_string (sid : Nat) (str : String) : Mw LocalVal := do
  set_as_string (localOfStatePtr (some sid)) str

/-- state::get_global: push the global, load it into a fresh handle on this
state, pop. -/
def state_get_global (sid : Nat) (n : String) : Mw LocalVal := do
  getGlobalOp (some sid) n
  let lcl ← load_value (localOfStatePtr (some sid)) (-1)
  stackPopN (some sid) 1
  pure lcl

/-- state::set_global(local lcl, const char *n), exactly in source order:
lua_setglobal first (which pops whatever is currently on top of the stack
into the global), the handle's value pushed afterwards (and left there).
(lcl is by value; see the call-boundary note above table_set.) -/
def state_set_global (sid : Nat) (lcl : LocalVal) (n : String) : Mw Unit := do
  setGlobalOp (some sid) n
  push_value lcl none

/- ===== The call protocol (operator() under LUA_WRAPPER_TABLE_RETURN) ===== -/

/-- local::prep_call: push the callee through the registry (cargs is reset to
zero; it is threaded explicitly here). -/
def prep_call (h : LocalVal) : Mw Unit :=
  push_ref_value h

/-- The specialised push_call_args<local>: check the argument against the
callee's lua_State, push it, count it.  (arg is by value; see the
call-boundary note above table_set.) -/
def push_call_arg (h : LocalVal) (arg : LocalVal) : Mw Unit := do
  check_state_consistancy arg h.L
  push_value arg h.L

/-- The loop body of the table-return branch of local::do_call:
for i in [0, retc): load the value at stack index -i-1 into a fresh handle,
store it at integer key i of the result table, destroy the handle. -/
def fillTable (sp : Option Nat) (tbl : LocalVal) : Nat → Nat → Mw Unit
| _, 0 => pure ()
| i, fuel + 1 => do
  let retv ← load_value (localOfStatePtr sp) (-(i : Int) - 1)
  table_set_int tbl (i : Int) retv
  release retv
  fillTable sp tbl (i + 1) fuel

/-- local::do_call (table-return build): record the top, run the protected
call, and aggregate.  retc is computed as -prevTop + currTop + cargs + 1.
Zero results return `local(*s)` (tag never set); one result is loaded from
the top and returned without popping it; two or more results go through
create_table and the fill loop, then retc values are popped. -/
def do_call (h : LocalVal) (cargs : Nat) (outcome : CallOutcome) : Mw LocalVal := do
  let prevTop ← getTop h.L
  let failed ← pcallOp h.L cargs outcome
  if failed then do
    let msg ← toStringTop h.L
    stackPopN h.L 1
    Mw.throw (.scriptError msg)
  else do
    let currTop ← getTop h.L
    let retc : Int := -(prevTop : Int) + (currTop : Int) + (cargs : Int) + 1
    if retc = 0 then
      pure (localOfStatePtr h.s)
    else if retc = 1 then do
      let lcl ← load_value (localOfStatePtr h.s) (-1)
      pure lcl
    else do
      match h.s with
      | none => Mw.throw .badState
      | some sid => do
        let tbl ← state_create_table sid
        fillTable h.s tbl 0 retc.toNat
        stackPopN h.L retc.toNat
        pure tbl

/-- local::operator()(): no callable check at all — straight to prep_call and
do_call. -/
def callNoArgs (h : LocalVal) (outcome : CallOutcome) : Mw LocalVal := do
  prep_call h
  do_call h 0 outcome

/-- local::operator()(T arg): check_is_function, prep_call, push the single
argument, do_call with cargs = 1. -/
def callOneArg (h : LocalVal) (arg : LocalVal) (outcome : CallOutcome) :
    Mw LocalVal := do
  check_is_function h
  prep_call h
  push_call_arg h arg
  do_call h 1 outcome

/-- local::operator()(T, Args...): check_is_function, prep_call, push each
argument left to right, do_call with cargs = the argument count. -/
def callArgs (h : LocalVal) (args : List LocalVal) (outcome : CallOutcome) :
    Mw LocalVal := do
  check_is_function h
  prep_call h
  pushAll args
  do_call h args.length outcome
where
  pushAll : List LocalVal → Mw Unit
  | [] => pure ()
  | a :: rest => do
    push_call_arg h a
    pushAll rest

/- ===== Observation helpers and concrete scenarios ===== -/

/-- The interpreter a world holds under an id (a torn-down or absent one reads
as an empty shell; only used to observe worlds known to hold the id). -/
def interpAt (w : World) (i : Nat) : Interp :=
  (w.interps.getD i none).getD ⟨[], [], 0, [], []⟩

/-- Stack depth of one interpreter of a world. -/
def stackDepth (w : World) (i : Nat) : Nat := (interpAt w i).stack.length

/-- A machine with no interpreter and an empty pool. -/
def wEmpty : World := ⟨[], []⟩

/-- One interpreter, empty stack, a function anchored at ref 1. -/
def wCall : World := ⟨[some ⟨[], [.func 0], 0, [], []⟩], []⟩

/-- A function-kind handle on that interpreter, anchored at ref 1. -/
def hFun : LocalVal := ⟨some 0, some 0, .function, .ref 1⟩

/-- A boolean-kind handle bound to that interpreter. -/
def hBool : LocalVal := ⟨some 0, some 0, .boolean, .b true⟩

/-- One interpreter whose stack already holds the number 7. -/
def wSetGlobal : World := ⟨[some ⟨[.int 7], [], 0, [], []⟩], []⟩

/-- An integer-5 handle bound to interpreter 0. -/
def hInt5 : LocalVal := ⟨some 0, some 0, .integer, .i 5⟩

/-- Two interpreters: a table anchored in the first, a string anchored in the
second. -/
def wCross : World :=
  ⟨[some ⟨[], [.table 0], 0, [], [[]]⟩, some ⟨[], [.str "k"], 0, [], []⟩], []⟩

/-- The table handle of interpreter 0 of wCross. -/
def hTblA : LocalVal := ⟨some 0, some 0, .table, .ref 1⟩

/-- The key handle of interpreter 1 of wCross. -/
def hKeyB : LocalVal := ⟨some 1, some 1, .string, .ref 1⟩

/-- One interpreter holding exactly one registry anchor: ref 1 is a table. -/
def wSelf : World := ⟨[some ⟨[], [.table 0], 0, [], [[]]⟩], []⟩

/-- A pool holding one refcounted buffer with count 1. -/
def wOneStr : World := ⟨[], [some (.counted 1 "a")]⟩

/-- A stateless-string handle sharing that sole buffer. -/
def hSStr : LocalVal := ⟨none, none, .statelessString, .sstr 0⟩

/-- One interpreter whose stack top is the number 3.0. -/
def wNum3 : World := ⟨[some ⟨[.num 3], [], 0, [], []⟩], []⟩

/-- One interpreter whose stack top is the number 3.5. -/
def wNum35 : World := ⟨[some ⟨[.num (mkRat 7 2)], [], 0, [], []⟩], []⟩

/-- Whether a wrapper operation completed without a failure. -/
def isOkB {α : Type} : Except Err α → Bool
| .ok _ => true
| .error _ => false

/-- A world with interpreter `i` replaced (proof-side helper). -/
def wSet (w : World) (i : Nat) (I : Interp) : World :=
  ⟨w.interps.set i (some I), w.pool⟩

/-- A world with one value pushed onto interpreter `i`, previously `I`
(proof-side helper). -/
def wPush (w : World) (i : Nat) (I : Interp) (v : LuaVal) : World :=
  wSet w i ⟨v :: I.stack, I.registry, I.freeHead, I.globals, I.tables⟩

/- ===== Theorems ===== -/

/-- C1: the claim says that under the table return policy a call with two or
more results yields a fresh table whose 0-based integer keys hold the results
in call order (key 0 = first result).  The code diverges: create_table leaves
the new table on the stack, so the fill loop stores the table itself at key 0
and the last result at key 1, and the first result is left behind on the
stack; a call producing the results 10, 20 yields the table
[(0, the table itself), (1, 20)] with 10 stranded on the stack, not
[(0, 10), (1, 20)]. -/
theorem c1_table_return_misplaces_results :
    (callNoArgs hFun (.ret [.int 10, .int 20]) wCall).1 =
      .ok ⟨some 0, some 0, .table, .ref 2⟩ ∧
    (interpAt (callNoArgs hFun (.ret [.int 10, .int 20]) wCall).2 0).tables =
      [[(.int 0, .table 0), (.int 1, .int 20)]] ∧
    (interpAt (callNoArgs hFun (.ret [.int 10, .int 20]) wCall).2 0).stack =
      [.int 10] ∧
    tblLookup [(.int 0, .table 0), (.int 1, .int 20)] (.int 0) ≠ .int 10 := by
  decide

/-- C2: the claim says the interpreter stack depth after operator() equals the
depth before the callee was pushed, in every case.  The code diverges in the
one-result case (the loaded result is never popped): a call producing one
result from a stack of depth 0 ends at depth 1. -/
theorem c2_single_result_leaves_stack_deeper :
    stackDepth (callNoArgs hFun (.ret [.int 7]) wCall).2 0 = 1 ∧
    stackDepth wCall 0 = 0 := by
  decide

/-- C3: the claim says invoking a non-function handle with any number of
arguments, including zero, fails with the not-callable error and performs no
call.  The zero-argument operator() omits check_is_function: invoking a
boolean-tagged handle with zero arguments runs the whole call protocol (here
surfacing the callee failure as a ScriptError), while the one-argument
overload does fail with the not-callable error. -/
theorem c3_zero_arg_call_skips_callable_check :
    callNoArgs hBool (.err "boom") wCall =
      (.error (.scriptError "boom"), wCall) ∧
    callOneArg hBool (localOfBool true) (.err "boom") wCall =
      (.error .notCallable, wCall) := by
  decide

/-- C5: the claim says set_global stores the handle's value under the global
name, so a following get_global observes that value.  The code calls
lua_setglobal before pushing the handle's value: with the number 7 already on
the stack, set_global of an integer-5 handle under "x" stores 7 into the
global, leaves 5 stranded on the stack, and the following get_global("x")
returns a handle holding 7, not 5. -/
theorem c5_set_global_stores_wrong_value :
    ((do state_set_global 0 hInt5 "x"; state_get_global 0 "x" :
        Mw LocalVal) wSetGlobal).1 = .ok ⟨some 0, some 0, .integer, .i 7⟩ ∧
    (interpAt ((do state_set_global 0 hInt5 "x"; state_get_global 0 "x" :
        Mw LocalVal) wSetGlobal).2 0).globals = [("x", .int 7)] ∧
    (interpAt ((do state_set_global 0 hInt5 "x"; state_get_global 0 "x" :
        Mw LocalVal) wSetGlobal).2 0).stack = [.int 5] ∧
    ((.i 7 : Payload) ≠ .i 5) := by
  decide

/-- C6 counterexample: the claim says a handle given the number 3.0 carries
the integer tag (because the round-trip test passes), and that a handle given
3.5 keeps the number tag.  Neither holds: the number constructor performs no
classification at all, so local(3.0) keeps the number tag; and set_as_number
integerizes unconditionally, so set_as_number(3.5) yields an integer-tagged
handle holding 4. -/
theorem c6_no_roundtrip_classification_on_set :
    (localOfNumber 3).t ≠ LType.integer ∧
    (set_as_number localDefault (mkRat 7 2) wEmpty).1 =
      .ok ⟨none, none, .integer, .i 4⟩ := by
  decide

/-- C6 amended: the literal number constructor stores the number unclassified
(local(3.0) keeps the number tag); set_as_number classifies immediately but
unconditionally through the rounding trick (3.0 becomes integer 3, 3.5
becomes integer 4); to_integer on a number-tagged handle applies
round-half-to-even (7/2 yields 4); the round-trip integer test runs only when
a value is materialized from the runtime through load_value (3.0 loads as
integer 3, 3.5 loads as number 3.5). -/
theorem c6_amended_numeric_classification :
    (localOfNumber 3).t = LType.number ∧
    (set_as_number localDefault 3 wEmpty).1 =
      .ok ⟨none, none, .integer, .i 3⟩ ∧
    (set_as_number localDefault (mkRat 7 2) wEmpty).1 =
      .ok ⟨none, none, .integer, .i 4⟩ ∧
    to_integer (localOfNumber (mkRat 7 2)) = 4 ∧
    (load_value (localOfStatePtr (some 0)) (-1) wNum3).1 =
      .ok ⟨some 0, some 0, .integer, .i 3⟩ ∧
    (load_value (localOfStatePtr (some 0)) (-1) wNum35).1 =
      .ok ⟨some 0, some 0, .number, .n (mkRat 7 2)⟩ := by
  decide

/-- C7: the claim says every stateless string buffer carries a 4-byte count
header set to 1, including strings produced by set_as_string on a
context-free handle.  The code's context-free set_as_string branch mallocs
the bytes with no header (it does not call create_string), so destroying such
a handle makes release_string touch the 4 bytes before the allocation — heap
corruption, modelled as the poolCorruption failure — while the literal
constructor path does keep the pool's live-buffer count unchanged. -/
theorem c7_set_as_string_skips_refcount_header :
    ((do let h ← set_as_string localDefault "a"; release h : Mw Unit)
        wEmpty) = (.error .poolCorruption, ⟨[], [some (.bare "a")]⟩) ∧
    ((do let h ← localOfString "a"; release h : Mw Unit) wEmpty) =
      (.ok (), ⟨[], [none]⟩) ∧
    poolLive ⟨[], [none]⟩ = poolLive wEmpty := by
  decide

/-- C9: the claim says self-assignment h = h leaves h unchanged and valid,
anchoring the same underlying value.  operator= releases before copying with
no self test: for the sole anchor of a table, release frees the registry slot
and copy_value then re-anchors what the freed slot now holds — the free-list
number 0 — so the handle ends up anchoring the number 0, not the table;
for a uniquely-owned stateless string, release frees the buffer and
copy_string then touches freed memory. -/
theorem c9_self_assignment_corrupts_anchor :
    regGet (interpAt wSelf 0).registry 1 = .table 0 ∧
    (assignLocal hTblA hTblA wSelf).1 = .ok ⟨some 0, some 0, .table, .ref 1⟩ ∧
    regGet (interpAt (assignLocal hTblA hTblA wSelf).2 0).registry 1 = .int 0 ∧
    (assignLocal hSStr hSStr wOneStr).1 = .error .poolCorruption := by
  decide

/-- C10: move-construction of a handle copies every member into the
destination and sets the source's tag to nil, so destroying the moved-from
source releases nothing (the machine, hence the destination's registry anchor
or string buffer, is untouched); moving a runtime context transfers the
lua_State and nulls the source, so destroying the moved-from context closes
nothing. -/
theorem c10_move_transfers_ownership (h : LocalVal) (st : StateW)
    (w w2 : World) :
    (moveLocal h).1 = h ∧
    (moveLocal h).2.t = LType.nil ∧
    release (moveLocal h).2 w = (.ok (), w) ∧
    (moveState st).1.L = st.L ∧
    (moveState st).2.L = none ∧
    stateDrop (moveState st).2 w2 = (.ok (), w2) :=
  ⟨rfl, rfl, by unfold release; simp [moveLocal, isRefType]; rfl, rfl, rfl, rfl⟩

/-- Unfolding lemma: the monad's bind is Mw.bindImpl. -/
theorem mwBind_def {α β : Type} (x : Mw α) (f : α → Mw β) :
    x >>= f = Mw.bindImpl x f := rfl

/-- Unfolding lemma: the monad's pure is Mw.pureImpl. -/
theorem mwPure_def {α : Type} (a : α) : (pure a : Mw α) = Mw.pureImpl a := rfl

/-- C4: for any two runtime contexts and any table handle of the first and
key handle of the second, table_get fails with the cross-context error
("Inconsistant state between locals") and returns the machine exactly as it
was: the check runs before any value is pushed, so neither interpreter's
stack depth is mutated. -/
theorem c4_cross_context_table_get_rejected
    (w : World) (tbl key : LocalVal) (a b : Nat)
    (htbl : tbl.t = LType.table) (hL : tbl.L = some a)
    (hk : key.L = some b) (hab : a ≠ b) :
    table_get tbl key w = (.error .inconsistentState, w) := by
  have hk2 : key.L ≠ none ∧ key.L ≠ tbl.L := by
    refine ⟨by simp [hk], ?_⟩
    rw [hk, hL]
    simp only [ne_eq, Option.some.injEq]
    exact fun h2 => hab h2.symm
  unfold table_get
  rw [mwBind_def, mwBind_def]
  unfold check_is_table
  rw [if_pos htbl]
  unfold check_state_consistancy
  rw [if_pos hk2]
  rfl

/-- C4 witness: two concrete interpreters, the table anchored in the first,
the key anchored in the second. -/
theorem c4_cross_context_witness :
    table_get hTblA hKeyB wCross = (.error .inconsistentState, wCross) :=
  c4_cross_context_table_get_rejected wCross hTblA hKeyB 0 1 rfl rfl rfl
    (by decide)

/-- A failed step makes the whole sequence fail. -/
theorem bind_isOkB_false_left {α β : Type} {x : Mw α} {f : α → Mw β}
    {w : World} (h : isOkB (x w).1 = false) :
    isOkB ((x >>= f) w).1 = false := by
  rw [mwBind_def]
  unfold Mw.bindImpl
  rcases hx : x w with ⟨r, w2⟩
  cases r with
  | ok a => rw [hx] at h; simp [isOkB] at h
  | error e => simp [isOkB]

/-- Step through one succeeding operation of a sequence. -/
theorem bind_isOkB_false_step {α β : Type} {x : Mw α} {f : α → Mw β}
    {w w1 : World} {a : α} (h : x w = (.ok a, w1))
    (h2 : isOkB ((f a) w1).1 = false) :
    isOkB ((x >>= f) w).1 = false := by
  rw [mwBind_def]
  unfold Mw.bindImpl
  rw [h]
  exact h2

/-- Step through one succeeding operation, any result. -/
theorem bind_ok_step {α β : Type} {x : Mw α} {f : α → Mw β}
    {w w1 : World} {a : α} {r : Except Err β × World}
    (h : x w = (.ok a, w1)) (h2 : f a w1 = r) : (x >>= f) w = r := by
  rw [mwBind_def]
  unfold Mw.bindImpl
  rw [h]
  exact h2

/-- lua_rawgeti on a live interpreter pushes the registry entry. -/
theorem rawgetiReg_live {i : Nat} {w : World} {I : Interp}
    (hI : w.interps.get? i = some (some I)) (r : Int) :
    rawgetiReg (some i) r w = (.ok (), wPush w i I (regGet I.registry r)) := by
  unfold rawgetiReg onInterp wPush wSet
  cases w with
  | mk is pl =>
    dsimp only at hI ⊢
    rw [hI]

/-- lua_rawgeti through a dead lua_State fails. -/
theorem rawgetiReg_dead {i : Nat} {w : World}
    (hI : w.interps.get? i = none ∨ w.interps.get? i = some none) (r : Int) :
    rawgetiReg (some i) r w = (.error .badState, w) := by
  unfold rawgetiReg onInterp
  cases w with
  | mk is pl =>
    dsimp only at hI ⊢
    rcases hI with h | h <;> rw [h]

/-- Pushing a value on a live interpreter. -/
theorem stackPush_live {i : Nat} {w : World} {I : Interp}
    (hI : w.interps.get? i = some (some I)) (v : LuaVal) :
    stackPush (some i) v w = (.ok (), wPush w i I v) := by
  unfold stackPush onInterp wPush wSet
  cases w with
  | mk is pl =>
    dsimp only at hI ⊢
    rw [hI]

/-- The pushed-onto interpreter is found again under its id. -/
theorem get?_wPush {i : Nat} {w : World} {I : Interp} {v : LuaVal}
    (hI : w.interps.get? i = some (some I)) :
    (wPush w i I v).interps.get? i =
      some (some ⟨v :: I.stack, I.registry, I.freeHead, I.globals, I.tables⟩) := by
  unfold wPush wSet
  simp only [List.get?_eq_getElem?] at hI ⊢
  simp [List.getElem?_set_self', hI]

/-- LUA_REFNIL reads as nil from the registry. -/
theorem regGet_refnil (reg : List LuaVal) : regGet reg (-1) = .nil := by
  unfold regGet
  norm_num

/-- Reading the pool either yields the bytes without touching the machine or
fails. -/
theorem poolData_outcome (k : Nat) (w : World) :
    (∃ d, poolData k w = (.ok d, w)) ∨
    poolData k w = (.error .poolCorruption, w) := by
  unfold poolData
  rcases hp : w.pool.get? k with _ | ob
  · right; rfl
  · rcases ob with _ | b
    · right; rfl
    · rcases b with c | d
      · left; exact ⟨_, rfl⟩
      · left; exact ⟨_, rfl⟩

/-- lua_settable addressed at -3 fails when the value there is nil. -/
theorem setTableOp_nil_third {i : Nat} {w : World} {I : Interp}
    {v k : LuaVal} {rest : List LuaVal}
    (hI : w.interps.get? i = some (some I))
    (hs : I.stack = v :: k :: .nil :: rest) :
    isOkB ((setTableOp (some i) (-3) w).1) = false := by
  unfold setTableOp onInterp
  cases w with
  | mk is pl =>
    dsimp only at hI ⊢
    rw [hI]
    rcases I with ⟨st, reg, fh, gl, tb⟩
    dsimp only at hs ⊢
    subst hs
    simp [stackIdx, isOkB]

/-- push_value directed at a live interpreter, for a handle that either has no
lua_State or that very one: it fails, or pushes exactly one value there. -/
theorem push_value_pushes_one {h : LocalVal} {i : Nat} {w : World} {I : Interp}
    (hI : w.interps.get? i = some (some I))
    (hL : h.L = none ∨ h.L = some i) (ht : h.t ≠ LType.uninit) :
    isOkB ((push_value h (some i) w).1) = false ∨
    ∃ v, push_value h (some i) w = (.ok (), wPush w i I v) := by
  unfold push_value push_ref_value
  cases hc : h.t
  case nil => exact .inr ⟨_, stackPush_live hI _⟩
  case boolean => exact .inr ⟨_, stackPush_live hI _⟩
  case number => exact .inr ⟨_, stackPush_live hI _⟩
  case integer => exact .inr ⟨_, stackPush_live hI _⟩
  case cfunction => exact .inr ⟨_, stackPush_live hI _⟩
  case lightuserdata => exact .inr ⟨_, stackPush_live hI _⟩
  case statelessString =>
    rcases poolData_outcome h.v.sstrVal w with ⟨d, hd⟩ | hd
    · exact .inr ⟨.str d, bind_ok_step hd (stackPush_live hI _)⟩
    · exact .inl (bind_isOkB_false_left (by simp [hd, isOkB]))
  case string =>
    rcases hL with h0 | h0
    · rw [h0]; exact .inl rfl
    · rw [h0]; exact .inr ⟨_, rawgetiReg_live hI _⟩
  case function =>
    rcases hL with h0 | h0
    · rw [h0]; exact .inl rfl
    · rw [h0]; exact .inr ⟨_, rawgetiReg_live hI _⟩
  case userdata =>
    rcases hL with h0 | h0
    · rw [h0]; exact .inl rfl
    · rw [h0]; exact .inr ⟨_, rawgetiReg_live hI _⟩
  case thread =>
    rcases hL with h0 | h0
    · rw [h0]; exact .inl rfl
    · rw [h0]; exact .inr ⟨_, rawgetiReg_live hI _⟩
  case table =>
    rcases hL with h0 | h0
    · rw [h0]; exact .inl rfl
    · rw [h0]; exact .inr ⟨_, rawgetiReg_live hI _⟩
  case uninit => exact absurd hc ht

/-- C8: a default-constructed table-slot proxy (no recorded context) fails
both conversion-to-value and assignment-from-value with the invalid-handle
failure, touching nothing; a proxy that records a context but is not bound to
a container (container ref still LUA_REFNIL) fails read access with the
not-bound-to-table failure; and assignment through such an unbound proxy is
never silently performed: it always ends in a failure (an earlier check
fails, the lua_State is dead, or the raw lua_settable finds nil where the
container should be), for every machine and every assigned handle with a set
tag. -/
theorem c8_proxy_checks (w : World) (rhs : LocalVal) (a : Nat) (idxR : Int)
    (hrhs : rhs.t ≠ LType.uninit) :
    TableIndex.get_value tableIndexDefault w = (.error .invalidHandle, w) ∧
    TableIndex.assign tableIndexDefault rhs w = (.error .invalidHandle, w) ∧
    TableIndex.get_value ⟨some a, -1, idxR⟩ w = (.error .notBoundToTable, w) ∧
    isOkB ((TableIndex.assign ⟨some a, -1, idxR⟩ rhs w).1) = false := by
  refine ⟨?_, ?_, ?_, ?_⟩
  · simp [TableIndex.get_value, TableIndex.check_valid, tableIndexDefault,
      mwBind_def, Mw.bindImpl, Mw.throw]
  · simp [TableIndex.assign, TableIndex.check_valid, tableIndexDefault,
      mwBind_def, Mw.bindImpl, Mw.throw]
  · simp [TableIndex.get_value, TableIndex.check_valid, mwBind_def,
      Mw.bindImpl, Mw.throw, mwPure_def, Mw.pureImpl]
  · have hcv : TableIndex.check_valid ⟨some a, -1, idxR⟩ w = (.ok (), w) := by
      simp [TableIndex.check_valid, mwPure_def, Mw.pureImpl]
    unfold TableIndex.assign
    refine bind_isOkB_false_step hcv ?_
    by_cases hC : rhs.L ≠ none ∧ rhs.L ≠ some a
    · refine bind_isOkB_false_left ?_
      simp [check_state_consistancy, hC, Mw.throw, isOkB]
    · have hcc : check_state_consistancy rhs (some a) w = (.ok (), w) := by
        simp only [check_state_consistancy, if_neg hC]
        rfl
      refine bind_isOkB_false_step hcc ?_
      have hL2 : rhs.L = none ∨ rhs.L = some a := by tauto
      rcases hI : w.interps.get? a with _ | oI
      · exact bind_isOkB_false_left
          (by simp [rawgetiReg_dead (Or.inl hI), isOkB])
      · rcases oI with _ | I
        · exact bind_isOkB_false_left
            (by simp [rawgetiReg_dead (Or.inr hI), isOkB])
        · refine bind_isOkB_false_step (rawgetiReg_live hI (-1)) ?_
          rw [regGet_refnil]
          have hI1 : (wPush w a I .nil).interps.get? a =
              some (some ⟨.nil :: I.stack, I.registry, I.freeHead,
                I.globals, I.tables⟩) := get?_wPush hI
          refine bind_isOkB_false_step (rawgetiReg_live hI1 idxR) ?_
          have hI2 : (wPush (wPush w a I .nil) a
              ⟨.nil :: I.stack, I.registry, I.freeHead, I.globals, I.tables⟩
              (regGet I.registry idxR)).interps.get? a =
              some (some ⟨regGet I.registry idxR :: .nil :: I.stack,
                I.registry, I.freeHead, I.globals, I.tables⟩) :=
            get?_wPush hI1
          rcases push_value_pushes_one hI2 hL2 hrhs with hfail | ⟨v, hpv⟩
          · exact bind_isOkB_false_left hfail
          · refine bind_isOkB_false_step hpv ?_
            refine bind_isOkB_false_left ?_
            exact setTableOp_nil_third (get?_wPush hI2) rfl

/-- C8 witness: the concrete machine wCall, an integer-5 handle, proxy ids 0
and 5. -/
theorem c8_proxy_checks_witness :
    TableIndex.get_value tableIndexDefault wCall = (.error .invalidHandle, wCall) ∧
    TableIndex.assign tableIndexDefault hInt5 wCall = (.error .invalidHandle, wCall) ∧
    TableIndex.get_value ⟨some 0, -1, 5⟩ wCall = (.error .notBoundToTable, wCall) ∧
    isOkB ((TableIndex.assign ⟨some 0, -1, 5⟩ hInt5 wCall).1) = false :=
  c8_proxy_checks wCall hInt5 0 5 (by decide)
